import Mathlib

/-!
Verification development for the QuantAgent repository.

The trendline-fitting core (the functions check_trend_line, fit_trendlines_single
and split_line_into_segments of graph_util.py) is exercised by
tests/test_graph_util.py but the module itself is not part of the source tree,
so those functions are modelled from the specification (sections 3, 4, 7, 8
and 9 of spec.md) together with the shapes pinned down by the unit tests.
Real-number arithmetic is modelled exactly over the rationals.

The Yahoo Finance data client (yahoofinanceClient.py) is part of the source
tree and its functions get_symbol, _clean_dataframe and get_price are
translated directly from the source.
-/

/-! ## Numeric model parameters of the trendline core -/

/-- Modelled from the spec: the small numeric tolerance of the validity rule of
section 4.1 (residuals of a support line must be nonnegative within this
tolerance). -/
def tol : ℚ := 1 / 100000

/-- Modelled from the spec: the step-size tolerance below which the slope
search of section 4.2 terminates. -/
def minStep : ℚ := 1 / 10000

/-- Modelled from the spec: the initial perturbation step of the slope
search of section 4.2. -/
def optStep : ℚ := 1

/-- Modelled from the spec: the maximum iteration budget of the slope search
of section 4.2. -/
def maxIter : Nat := 60

/-- Indexing into a price series, with a default of 0 out of range (all
flows below stay in range). -/
def yval (y : List ℚ) (i : Nat) : ℚ := y.getD i 0

/-! ## LineEvaluator: check_trend_line -/

/-- The signed residuals of the candidate line anchored at (pivot, y[pivot])
with the given slope: residual i = y[i] - (slope * i + intercept) with the
intercept derived from the pivot. -/
def diffsOf (pivot : Nat) (slope : ℚ) (y : List ℚ) : List ℚ :=
  (List.range y.length).map
    (fun i => yval y i - (slope * (i : ℚ) + (yval y pivot - slope * (pivot : ℚ))))

/-- The validity rule of section 4.1 of the spec: a support candidate is
invalid when some residual is below -tol, a resistance candidate when some
residual is above tol. -/
def invalidCand (support : Bool) (pivot : Nat) (slope : ℚ) (y : List ℚ) : Bool :=
  if support then (diffsOf pivot slope y).any (fun d => decide (d < -tol))
  else (diffsOf pivot slope y).any (fun d => decide (tol < d))

/-- Modelled from the spec: graph_util.check_trend_line (LineEvaluator of
section 4.1; graph_util.py is not in the source tree). The candidate line is
forced through (pivot, y[pivot]) with the given slope; an invalid candidate
yields the reserved numeric sentinel -1 (sections 7 and 9 of the spec and
the unit test test_check_trend_line_support_valid pin this sentinel), a
valid one the sum of squared residuals. -/
def check_trend_line (support : Bool) (pivot : Nat) (slope : ℚ) (y : List ℚ) : ℚ :=
  if invalidCand support pivot slope y then -1
  else (diffsOf pivot slope y).foldl (fun a d => a + d * d) 0

/-! ## SlopeOptimizer: optimize_slope -/

/-- Modelled from the spec: the re-anchoring step of section 4.2 — the pivot
is moved to the index most extreme for the requested side under the current
slope hypothesis (the lowest value relative to the sloped line for support,
the highest for resistance). -/
def reanchor (support : Bool) (slope : ℚ) (y : List ℚ) : Nat :=
  if support then (((List.range y.length)).argmin (fun i => yval y i - slope * (i : ℚ))).getD 0
  else (((List.range y.length)).argmax (fun i => yval y i - slope * (i : ℚ))).getD 0

/-- Modelled from the spec: one candidate evaluation of the search loop of
section 4.2 — evaluate the trial slope at the current pivot; if the candidate
is invalid, re-anchor the pivot to the worst violation and re-evaluate with
the same slope. Returns the pivot actually used and its evaluation. -/
def evalCand (support : Bool) (y : List ℚ) (pivot : Nat) (slope : ℚ) : Nat × ℚ :=
  if 0 ≤ check_trend_line support pivot slope y then
    (pivot, check_trend_line support pivot slope y)
  else
    (reanchor support slope y, check_trend_line support (reanchor support slope y) slope y)

/-- Modelled from the spec: the iterative local search of section 4.2. At
each step the slope is perturbed by the current step in both directions; a
perturbation that strictly improves the metric is kept, otherwise the step is
halved; the loop stops when the step falls below minStep or the fuel (the
iteration budget) runs out, returning the last valid (pivot, slope). -/
def optLoop (support : Bool) (y : List ℚ) : Nat → Nat → ℚ → ℚ → ℚ → Nat × ℚ
  | 0, pivot, slope, _, _ => (pivot, slope)
  | Nat.succ fuel, pivot, slope, bestErr, step =>
    if step < minStep then (pivot, slope)
    else if (evalCand support y pivot (slope + step)).2 < bestErr ∧
            (evalCand support y pivot (slope + step)).2 ≤ (evalCand support y pivot (slope - step)).2 then
      optLoop support y fuel (evalCand support y pivot (slope + step)).1 (slope + step)
        (evalCand support y pivot (slope + step)).2 step
    else if (evalCand support y pivot (slope - step)).2 < bestErr then
      optLoop support y fuel (evalCand support y pivot (slope - step)).1 (slope - step)
        (evalCand support y pivot (slope - step)).2 step
    else
      optLoop support y fuel pivot slope bestErr (step / 2)

/-- Modelled from the spec: graph_util.optimize_slope (SlopeOptimizer of
section 4.2). Seeds the pivot at the most extreme index for the requested
side under the initial slope, runs the local search, and converts the final
(pivot, slope) into a (slope, intercept) pair. -/
def optimize_slope (support : Bool) (initSlope : ℚ) (y : List ℚ) : ℚ × ℚ :=
  let p0 := reanchor support initSlope y
  let r := optLoop support y maxIter p0 initSlope (check_trend_line support p0 initSlope y) optStep
  (r.2, yval y r.1 - r.2 * (r.1 : ℚ))

/-! ## PivotTrendlineFitter: fit_trendlines_single -/

/-- Error kind of section 7 of the spec: series too short for a meaningful
slope. -/
inductive FitError where
  | DegenerateInput
deriving DecidableEq

/-- Modelled from the spec: the ordinary-least-squares slope over the whole
series used as the shared starting hypothesis (section 4.3), with the index
0..n-1 as the x coordinate. -/
def olsSlope (y : List ℚ) : ℚ :=
  let n : ℚ := y.length
  let idx := List.range y.length
  let sx : ℚ := idx.foldl (fun a i => a + (i : ℚ)) 0
  let sy : ℚ := y.foldl (fun a v => a + v) 0
  let sxy : ℚ := (idx.zip y).foldl (fun a p => a + (p.1 : ℚ) * p.2) 0
  let sxx : ℚ := idx.foldl (fun a i => a + (i : ℚ) * (i : ℚ)) 0
  (n * sxy - sx * sy) / (n * sxx - sx * sx)

/-- Modelled from the spec: graph_util.fit_trendlines_single
(PivotTrendlineFitter of section 4.3; degenerate-input policy of sections 7
and 8: a series of fewer than two points raises DegenerateInputError). Seeds
both sides from the OLS slope and optimizes the support and resistance sides
independently. -/
def fit_trendlines_single (y : List ℚ) : Except FitError ((ℚ × ℚ) × (ℚ × ℚ)) :=
  if y.length < 2 then Except.error FitError.DegenerateInput
  else
    Except.ok (optimize_slope true (olsSlope y) y, optimize_slope false (olsSlope y) y)

/-! ## SegmentSplitter: split_line_into_segments -/

/-- Modelled from the spec: graph_util.split_line_into_segments
(SegmentSplitter of section 4.4; the unit test pins each segment as the
two-element list of consecutive points). -/
def split_line_into_segments : List (ℚ × ℚ) → List (List (ℚ × ℚ))
  | p :: q :: rest => [p, q] :: split_line_into_segments (q :: rest)
  | _ => []

/-- Index of the global minimum of a series (first occurrence), the pivot of
the testable property of section 8 of the spec. -/
def argminIdx (y : List ℚ) : Nat :=
  ((List.range y.length).argmin (fun i => yval y i)).getD 0

/-! ## Basic facts about the evaluator -/

theorem tol_pos : 0 < tol := by norm_num [tol]

theorem foldl_add_sq_le (l : List ℚ) : ∀ a : ℚ, a ≤ l.foldl (fun a d => a + d * d) a := by
  induction l with
  | nil => intro a; simp
  | cons d t ih =>
    intro a
    rw [List.foldl_cons]
    exact le_trans (by nlinarith [mul_self_nonneg d]) (ih (a + d * d))

/-- The evaluator returns either the invalid sentinel -1 or a non-negative
sum of squared residuals: no other value is possible. -/
theorem check_trend_line_sentinel_or_nonneg (support : Bool) (pivot : Nat) (slope : ℚ)
    (y : List ℚ) :
    check_trend_line support pivot slope y = -1 ∨
      0 ≤ check_trend_line support pivot slope y := by
  unfold check_trend_line
  split_ifs <;> first
    | exact Or.inl rfl
    | exact Or.inr (foldl_add_sq_le _ 0)

theorem check_nonneg_of_support_le (pivot : Nat) (slope : ℚ) (y : List ℚ)
    (h : ∀ i, i < y.length →
      slope * (i : ℚ) + (yval y pivot - slope * (pivot : ℚ)) ≤ yval y i + tol) :
    0 ≤ check_trend_line true pivot slope y := by
  have hany : (diffsOf pivot slope y).any (fun d => decide (d < -tol)) = false := by
    rw [List.any_eq_false]
    intro d hd
    simp only [diffsOf, List.mem_map, List.mem_range] at hd
    obtain ⟨i, hi, rfl⟩ := hd
    have := h i hi
    simp only [decide_eq_true_eq, not_lt]
    linarith
  have hinv : invalidCand true pivot slope y = false := by simp [invalidCand, hany]
  unfold check_trend_line
  simp only [hinv, Bool.false_eq_true, if_false]
  exact foldl_add_sq_le _ 0

theorem check_nonneg_of_resist_ge (pivot : Nat) (slope : ℚ) (y : List ℚ)
    (h : ∀ i, i < y.length →
      yval y i - tol ≤ slope * (i : ℚ) + (yval y pivot - slope * (pivot : ℚ))) :
    0 ≤ check_trend_line false pivot slope y := by
  have hany : (diffsOf pivot slope y).any (fun d => decide (tol < d)) = false := by
    rw [List.any_eq_false]
    intro d hd
    simp only [diffsOf, List.mem_map, List.mem_range] at hd
    obtain ⟨i, hi, rfl⟩ := hd
    have := h i hi
    simp only [decide_eq_true_eq, not_lt]
    linarith
  have hinv : invalidCand false pivot slope y = false := by simp [invalidCand, hany]
  unfold check_trend_line
  simp only [hinv, Bool.false_eq_true, if_false]
  exact foldl_add_sq_le _ 0

theorem support_le_of_check_nonneg (pivot : Nat) (slope : ℚ) (y : List ℚ)
    (h : 0 ≤ check_trend_line true pivot slope y) (i : Nat) (hi : i < y.length) :
    slope * (i : ℚ) + (yval y pivot - slope * (pivot : ℚ)) ≤ yval y i + tol := by
  by_contra hc
  push_neg at hc
  have hmem : (yval y i - (slope * (i : ℚ) + (yval y pivot - slope * (pivot : ℚ)))) ∈
      diffsOf pivot slope y := by
    simp only [diffsOf, List.mem_map, List.mem_range]
    exact ⟨i, hi, rfl⟩
  have hany : (diffsOf pivot slope y).any (fun d => decide (d < -tol)) = true :=
    List.any_eq_true.mpr ⟨_, hmem, by simp only [decide_eq_true_eq]; linarith⟩
  have hinv : invalidCand true pivot slope y = true := by simp [invalidCand, hany]
  unfold check_trend_line at h
  simp only [hinv, if_true] at h
  norm_num at h

theorem resist_ge_of_check_nonneg (pivot : Nat) (slope : ℚ) (y : List ℚ)
    (h : 0 ≤ check_trend_line false pivot slope y) (i : Nat) (hi : i < y.length) :
    yval y i - tol ≤ slope * (i : ℚ) + (yval y pivot - slope * (pivot : ℚ)) := by
  by_contra hc
  push_neg at hc
  have hmem : (yval y i - (slope * (i : ℚ) + (yval y pivot - slope * (pivot : ℚ)))) ∈
      diffsOf pivot slope y := by
    simp only [diffsOf, List.mem_map, List.mem_range]
    exact ⟨i, hi, rfl⟩
  have hany : (diffsOf pivot slope y).any (fun d => decide (tol < d)) = true :=
    List.any_eq_true.mpr ⟨_, hmem, by simp only [decide_eq_true_eq]; linarith⟩
  have hinv : invalidCand false pivot slope y = true := by simp [invalidCand, hany]
  unfold check_trend_line at h
  simp only [hinv, if_true] at h
  norm_num at h

/-! ## The re-anchored pivot is extreme for its side -/

theorem reanchor_min (slope : ℚ) (y : List ℚ) (hy : y ≠ []) (i : Nat) (hi : i < y.length) :
    yval y (reanchor true slope y) - slope * ((reanchor true slope y : Nat) : ℚ) ≤
      yval y i - slope * (i : ℚ) := by
  obtain ⟨m, hm⟩ : ∃ m, (List.range y.length).argmin
      (fun j => yval y j - slope * (j : ℚ)) = some m := by
    cases hh : (List.range y.length).argmin (fun j => yval y j - slope * (j : ℚ)) with
    | none =>
      rw [List.argmin_eq_none, List.range_eq_nil] at hh
      exact absurd (List.eq_nil_of_length_eq_zero hh) hy
    | some m => exact ⟨m, rfl⟩
  have hre : reanchor true slope y = m := by simp [reanchor, hm]
  rw [hre]
  exact List.le_of_mem_argmin (List.mem_range.mpr hi) (by rw [hm]; rfl)

theorem reanchor_max (slope : ℚ) (y : List ℚ) (hy : y ≠ []) (i : Nat) (hi : i < y.length) :
    yval y i - slope * (i : ℚ) ≤
      yval y (reanchor false slope y) - slope * ((reanchor false slope y : Nat) : ℚ) := by
  obtain ⟨m, hm⟩ : ∃ m, (List.range y.length).argmax
      (fun j => yval y j - slope * (j : ℚ)) = some m := by
    cases hh : (List.range y.length).argmax (fun j => yval y j - slope * (j : ℚ)) with
    | none =>
      rw [List.argmax_eq_none, List.range_eq_nil] at hh
      exact absurd (List.eq_nil_of_length_eq_zero hh) hy
    | some m => exact ⟨m, rfl⟩
  have hre : reanchor false slope y = m := by simp [reanchor, hm]
  rw [hre]
  exact List.le_of_mem_argmax (List.mem_range.mpr hi) (by rw [hm]; rfl)

/-- A candidate anchored at the re-anchored pivot is always valid: this is
the re-anchoring guarantee of section 4.2 that makes the search never leave
the feasible region. -/
theorem check_reanchor_nonneg (support : Bool) (slope : ℚ) (y : List ℚ) (hy : y ≠ []) :
    0 ≤ check_trend_line support (reanchor support slope y) slope y := by
  cases support with
  | false =>
    apply check_nonneg_of_resist_ge
    intro i hi
    have := reanchor_max slope y hy i hi
    have htol := tol_pos
    linarith
  | true =>
    apply check_nonneg_of_support_le
    intro i hi
    have := reanchor_min slope y hy i hi
    have htol := tol_pos
    linarith

/-! ## The search loop never leaves the feasible region -/

theorem evalCand_snd_eq (support : Bool) (y : List ℚ) (pivot : Nat) (slope : ℚ) :
    (evalCand support y pivot slope).2 =
      check_trend_line support (evalCand support y pivot slope).1 slope y := by
  unfold evalCand
  split <;> rfl

theorem evalCand_snd_nonneg (support : Bool) (y : List ℚ) (pivot : Nat) (slope : ℚ)
    (hy : y ≠ []) : 0 ≤ (evalCand support y pivot slope).2 := by
  unfold evalCand
  split
  · assumption
  · exact check_reanchor_nonneg support slope y hy

theorem evalCand_check_nonneg (support : Bool) (y : List ℚ) (pivot : Nat) (slope : ℚ)
    (hy : y ≠ []) :
    0 ≤ check_trend_line support (evalCand support y pivot slope).1 slope y := by
  rw [← evalCand_snd_eq]
  exact evalCand_snd_nonneg support y pivot slope hy

/-- Invariant of the local search: starting from a valid candidate, the pivot
and slope returned by the loop always describe a valid candidate. -/
theorem optLoop_check_nonneg (support : Bool) (y : List ℚ) (hy : y ≠ []) :
    ∀ (fuel pivot : Nat) (slope bestErr step : ℚ),
      0 ≤ check_trend_line support pivot slope y →
      0 ≤ check_trend_line support (optLoop support y fuel pivot slope bestErr step).1
            (optLoop support y fuel pivot slope bestErr step).2 y := by
  intro fuel
  induction fuel with
  | zero =>
    intro p s b st h
    simpa only [optLoop] using h
  | succ n ih =>
    intro p s b st h
    rw [optLoop]
    split_ifs with h1 h2 h3
    · exact h
    · exact ih _ _ _ _ (evalCand_check_nonneg support y p (s + st) hy)
    · exact ih _ _ _ _ (evalCand_check_nonneg support y p (s - st) hy)
    · exact ih _ _ _ _ h

/-- The SlopeOptimizer guarantee of section 4.2: the returned support line
never rises above the series by more than the tolerance. -/
theorem optimize_slope_support_le (initSlope : ℚ) (y : List ℚ) (hy : y ≠ [])
    (i : Nat) (hi : i < y.length) :
    (optimize_slope true initSlope y).1 * (i : ℚ) + (optimize_slope true initSlope y).2 ≤
      yval y i + tol := by
  have h0 : 0 ≤ check_trend_line true (reanchor true initSlope y) initSlope y :=
    check_reanchor_nonneg true initSlope y hy
  have hinv := optLoop_check_nonneg true y hy maxIter (reanchor true initSlope y) initSlope
    (check_trend_line true (reanchor true initSlope y) initSlope y) optStep h0
  simp only [optimize_slope]
  exact support_le_of_check_nonneg _ _ y hinv i hi

/-- The SlopeOptimizer guarantee of section 4.2: the returned resistance line
never falls below the series by more than the tolerance. -/
theorem optimize_slope_resist_ge (initSlope : ℚ) (y : List ℚ) (hy : y ≠ [])
    (i : Nat) (hi : i < y.length) :
    yval y i - tol ≤
      (optimize_slope false initSlope y).1 * (i : ℚ) + (optimize_slope false initSlope y).2 := by
  have h0 : 0 ≤ check_trend_line false (reanchor false initSlope y) initSlope y :=
    check_reanchor_nonneg false initSlope y hy
  have hinv := optLoop_check_nonneg false y hy maxIter (reanchor false initSlope y) initSlope
    (check_trend_line false (reanchor false initSlope y) initSlope y) optStep h0
  simp only [optimize_slope]
  exact resist_ge_of_check_nonneg _ _ y hinv i hi

/-! ## Claim theorems for the trendline core -/

/-- C1: for every series of at least 2 values, fit_trendlines_single returns
two (slope, intercept) pairs; the support line at every index is at most the
series value plus the tolerance, and the resistance line at every index is at
least the series value minus the tolerance. -/
theorem fit_trendlines_single_valid (y : List ℚ) (h2 : 2 ≤ y.length) :
    ∃ sup res : ℚ × ℚ, fit_trendlines_single y = Except.ok (sup, res) ∧
      ∀ i, i < y.length →
        sup.1 * (i : ℚ) + sup.2 ≤ yval y i + tol ∧
        yval y i - tol ≤ res.1 * (i : ℚ) + res.2 := by
  have hy : y ≠ [] := by
    intro h
    rw [h] at h2
    simp at h2
  refine ⟨optimize_slope true (olsSlope y) y, optimize_slope false (olsSlope y) y, ?_, ?_⟩
  · unfold fit_trendlines_single
    rw [if_neg (by omega)]
  · intro i hi
    exact ⟨optimize_slope_support_le _ y hy i hi, optimize_slope_resist_ge _ y hy i hi⟩

/-- Witness for C1 at the concrete two-point series [10, 11]. -/
theorem fit_trendlines_single_valid_witness :
    ∃ sup res : ℚ × ℚ, fit_trendlines_single [10, 11] = Except.ok (sup, res) ∧
      ∀ i, i < ([(10 : ℚ), 11]).length →
        sup.1 * (i : ℚ) + sup.2 ≤ yval [10, 11] i + tol ∧
        yval [10, 11] i - tol ≤ res.1 * (i : ℚ) + res.2 :=
  fit_trendlines_single_valid [10, 11] (by decide)

/-- C2: if the line through the global minimum of the series with slope σ
lies at or below every series value, the evaluator returns a non-negative
metric (never the invalid sentinel). -/
theorem check_trend_line_argmin_nonneg (y : List ℚ) (slope : ℚ)
    (h : ∀ i, i < y.length →
      slope * (i : ℚ) + (yval y (argminIdx y) - slope * ((argminIdx y : Nat) : ℚ)) ≤
        yval y i) :
    0 ≤ check_trend_line true (argminIdx y) slope y := by
  apply check_nonneg_of_support_le
  intro i hi
  have h1 := h i hi
  have h2 := tol_pos
  linarith

/-- Witness for C2 at the ascending series [10, 11, 12, 13, 14] with slope 1. -/
theorem check_trend_line_argmin_nonneg_witness :
    (∀ i, i < ([(10 : ℚ), 11, 12, 13, 14]).length →
      1 * (i : ℚ) + (yval [10, 11, 12, 13, 14] (argminIdx [10, 11, 12, 13, 14]) -
        1 * ((argminIdx [10, 11, 12, 13, 14] : Nat) : ℚ)) ≤ yval [10, 11, 12, 13, 14] i) ∧
    0 ≤ check_trend_line true (argminIdx [10, 11, 12, 13, 14]) 1 [10, 11, 12, 13, 14] :=
  ⟨by with_unfolding_all decide,
   check_trend_line_argmin_nonneg [10, 11, 12, 13, 14] 1 (by with_unfolding_all decide)⟩

/-- C3: splitting an ordered point list of length n yields exactly n - 1
segments (0 when n ≤ 1), and segment i is the pair of points i and i + 1. -/
theorem split_line_into_segments_spec (ps : List (ℚ × ℚ)) :
    (split_line_into_segments ps).length = ps.length - 1 ∧
    ∀ i, i + 1 < ps.length →
      (split_line_into_segments ps).getD i [] =
        [ps.getD i (0, 0), ps.getD (i + 1) (0, 0)] := by
  induction ps with
  | nil =>
    refine ⟨rfl, fun i hi => ?_⟩
    simp at hi
  | cons p rest ih =>
    cases rest with
    | nil =>
      refine ⟨rfl, fun i hi => ?_⟩
      simp at hi
    | cons q rest2 =>
      constructor
      · have := ih.1
        simp only [split_line_into_segments, List.length_cons] at *
        omega
      · intro i hi
        cases i with
        | zero => rfl
        | succ j =>
          have hj : j + 1 < (q :: rest2).length := by
            simp only [List.length_cons] at hi ⊢
            omega
          have := ih.2 j hj
          simpa only [split_line_into_segments, List.getD_cons_succ] using this

/-- Witness for C3 at the four-point polyline of the end-to-end scenario. -/
theorem split_line_into_segments_spec_witness :
    split_line_into_segments [(0, 1), (1, 2), (2, 3), (3, 4)] =
      [[(0, 1), (1, 2)], [(1, 2), (2, 3)], [(2, 3), (3, 4)]] ∧
    (split_line_into_segments [(0, 1), (1, 2), (2, 3), (3, 4)]).length =
      ([((0 : ℚ), (1 : ℚ)), (1, 2), (2, 3), (3, 4)]).length - 1 ∧
    (split_line_into_segments [(0, 1), (1, 2), (2, 3), (3, 4)]).getD 1 [] =
      [([((0 : ℚ), (1 : ℚ)), (1, 2), (2, 3), (3, 4)]).getD 1 (0, 0),
       ([((0 : ℚ), (1 : ℚ)), (1, 2), (2, 3), (3, 4)]).getD 2 (0, 0)] :=
  ⟨by with_unfolding_all decide,
   (split_line_into_segments_spec [(0, 1), (1, 2), (2, 3), (3, 4)]).1,
   (split_line_into_segments_spec [(0, 1), (1, 2), (2, 3), (3, 4)]).2 1 (by decide)⟩

/-- C4: the empty series and every one-point series are degenerate input:
fit_trendlines_single reports DegenerateInput instead of returning a line. -/
theorem fit_trendlines_single_short_series :
    fit_trendlines_single ([] : List ℚ) = Except.error FitError.DegenerateInput ∧
    ∀ x : ℚ, fit_trendlines_single [x] = Except.error FitError.DegenerateInput :=
  ⟨rfl, fun _ => rfl⟩

/-- C5 (counterexample): the evaluator signals an invalid candidate with the
reserved NUMERIC sentinel -1, an ordinary rational that is numerically
comparable with (and below) the valid metric 0 returned for a valid
candidate on the same series — not a result kind disjoint from numbers. -/
theorem check_trend_line_sentinel_counterexample :
    check_trend_line true 0 2 [10, 11, 12] = -1 ∧
    check_trend_line true 0 2 [10, 11, 12] < check_trend_line true 0 1 [10, 11, 12] ∧
    check_trend_line true 0 1 [10, 11, 12] = 0 := by
  refine ⟨?_, ?_, ?_⟩ <;> with_unfolding_all decide

/-- C5 (amended): an invalid candidate always yields exactly the sentinel -1
and a valid candidate always yields a non-negative metric, so the sentinel
never collides with any valid metric value, although it is an ordinary
number rather than a separate result kind. -/
theorem check_trend_line_sentinel_spec (support : Bool) (pivot : Nat) (slope : ℚ)
    (y : List ℚ) :
    (invalidCand support pivot slope y = true → check_trend_line support pivot slope y = -1) ∧
    (invalidCand support pivot slope y = false → 0 ≤ check_trend_line support pivot slope y) := by
  constructor
  · intro h
    unfold check_trend_line
    simp only [h, if_true]
  · intro h
    unfold check_trend_line
    simp only [h, Bool.false_eq_true, if_false]
    exact foldl_add_sq_le _ 0

/-- Witness for C5 (amended) at one invalid and one valid concrete candidate. -/
theorem check_trend_line_sentinel_spec_witness :
    check_trend_line true 0 2 [10, 11, 12] = -1 ∧
    0 ≤ check_trend_line true 0 1 [10, 11, 12] :=
  ⟨(check_trend_line_sentinel_spec true 0 2 [10, 11, 12]).1 (by with_unfolding_all decide),
   (check_trend_line_sentinel_spec true 0 1 [10, 11, 12]).2 (by with_unfolding_all decide)⟩

/-- The perfectly linear series of the end-to-end scenario of section 8. -/
def linSeries : List ℚ := [100, 101, 102, 103, 104, 105, 106, 107, 108, 109]

deriving instance DecidableEq for Except

set_option maxRecDepth 40000 in
/-- C6: on the perfectly linear series 100..109 the fitter returns slope 1
and intercept 100 for both sides (the two lines coincide with the data), and
the deviation metric of that line is 0 on both sides. -/
theorem fit_trendlines_single_linear :
    fit_trendlines_single linSeries = Except.ok ((1, 100), (1, 100)) ∧
    check_trend_line true 0 1 linSeries = 0 ∧
    check_trend_line false 0 1 linSeries = 0 := by
  refine ⟨?_, ?_, ?_⟩ <;> with_unfolding_all decide

/-- C7: the fitter is a pure function of the input series — equal inputs
give identical outputs. -/
theorem fit_trendlines_single_deterministic (y1 y2 : List ℚ) (h : y1 = y2) :
    fit_trendlines_single y1 = fit_trendlines_single y2 := by
  rw [h]

/-- Witness for C7 at the concrete linear series. -/
theorem fit_trendlines_single_deterministic_witness :
    fit_trendlines_single linSeries = fit_trendlines_single linSeries :=
  fit_trendlines_single_deterministic linSeries linSeries rfl

/-! ## The Yahoo Finance client (translated from src/yahoofinanceClient.py) -/

theorem charToNat_ofNat (n : Nat) (h : n.isValidChar) : (Char.ofNat n).toNat = n := by
  rw [Char.ofNat, dif_pos h]
  rfl

theorem charToUpper_fix (c : Char) (h : ¬ (97 ≤ c.toNat ∧ c.toNat ≤ 122)) :
    c.toUpper = c := by
  simp only [Char.toUpper]
  rw [if_neg h]

theorem charToUpper_idem (c : Char) : c.toUpper.toUpper = c.toUpper := by
  by_cases h : 97 ≤ c.toNat ∧ c.toNat ≤ 122
  · have h1 : c.toUpper = Char.ofNat (c.toNat - 32) := by
      simp only [Char.toUpper]
      rw [if_pos h]
    have hv : (c.toNat - 32).isValidChar := Or.inl (by omega)
    have h2 : (Char.ofNat (c.toNat - 32)).toNat = c.toNat - 32 := charToNat_ofNat _ hv
    rw [h1]
    apply charToUpper_fix
    rw [h2]
    omega
  · rw [charToUpper_fix c h, charToUpper_fix c h]

/-- Python str.upper applied character-wise (the symbols handled by the
client are plain ASCII, where Python and Lean uppercase agree). -/
def pyUpper (s : String) : String := ⟨s.data.map Char.toUpper⟩

theorem pyUpper_idem (s : String) : pyUpper (pyUpper s) = pyUpper s := by
  unfold pyUpper
  simp only [List.map_map]
  have hfix : (Char.toUpper ∘ Char.toUpper) = Char.toUpper := funext charToUpper_idem
  rw [hfix]

/-- Translated from YahooFinanceClient.YFINANCE_SYMBOLS
(src/yahoofinanceClient.py lines 34-70), as an association list in source
order. -/
def YFINANCE_SYMBOLS : List (String × String) :=
  [("BTC", "BTC-USD"), ("ETH", "ETH-USD"), ("BNB", "BNB-USD"), ("SOL", "SOL-USD"),
   ("XRP", "XRP-USD"), ("ADA", "ADA-USD"), ("DOGE", "DOGE-USD"), ("AVAX", "AVAX-USD"),
   ("LINK", "LINK-USD"), ("DOT", "DOT-USD"),
   ("SPY", "SPY"), ("QQQ", "QQQ"), ("AAPL", "AAPL"), ("TSLA", "TSLA"), ("NVDA", "NVDA"),
   ("EURUSD", "EURUSD=X"), ("GBPUSD", "GBPUSD=X"), ("USDJPY", "USDJPY=X"),
   ("ES", "ES=F"), ("NQ", "NQ=F"), ("GC", "GC=F"), ("CL", "CL=F"), ("BTCF", "BTC=F"),
   ("SPX", "^GSPC"), ("DJI", "^DJI"), ("VIX", "^VIX"), ("DXY", "DX-Y.NYB")]

/-- Translated from YahooFinanceClient.get_symbol
(src/yahoofinanceClient.py lines 109-111): look the upper-cased symbol up in
YFINANCE_SYMBOLS and fall back to the upper-cased symbol itself. -/
def get_symbol (s : String) : String :=
  (List.lookup (pyUpper s) YFINANCE_SYMBOLS).getD (pyUpper s)

/-- C9: get_symbol returns the mapped ticker of the upper-cased symbol when
the mapping has it, the upper-cased symbol itself otherwise, and is
case-insensitive. -/
theorem get_symbol_spec (s : String) :
    (∀ v, List.lookup (pyUpper s) YFINANCE_SYMBOLS = some v → get_symbol s = v) ∧
    (List.lookup (pyUpper s) YFINANCE_SYMBOLS = none → get_symbol s = pyUpper s) ∧
    get_symbol s = get_symbol (pyUpper s) := by
  refine ⟨?_, ?_, ?_⟩
  · intro v hv
    unfold get_symbol
    rw [hv]
    rfl
  · intro hv
    unfold get_symbol
    rw [hv]
    rfl
  · unfold get_symbol
    rw [pyUpper_idem]

/-- Witness for C9 at a mapped lower-case symbol and an unmapped one. -/
theorem get_symbol_spec_witness :
    List.lookup (pyUpper "btc") YFINANCE_SYMBOLS = some "BTC-USD" ∧
    get_symbol "btc" = "BTC-USD" ∧
    List.lookup (pyUpper "zzz") YFINANCE_SYMBOLS = none ∧
    get_symbol "zzz" = pyUpper "zzz" :=
  ⟨by decide, (get_symbol_spec "btc").1 "BTC-USD" (by decide), by decide,
   (get_symbol_spec "zzz").2.1 (by decide)⟩

/-! ## _clean_dataframe and get_price -/

/-- Python exception kinds arising in the modelled client code. -/
inductive PyError where
  | NameError
  | RuntimeError
deriving DecidableEq

/-- A minimal model of the pandas DataFrame handed to _clean_dataframe: a
list of column names and a list of rows of rational values (timestamps
encoded as numbers). -/
structure PFrame where
  cols : List String
  rows : List (List ℚ)
deriving DecidableEq

/-- The empty DataFrame pd.DataFrame(). -/
def emptyFrame : PFrame := ⟨[], []⟩

/-- pandas df.empty: true when the frame has no rows or no columns. -/
def PFrame.isEmptyDF (d : PFrame) : Bool := d.rows.isEmpty || d.cols.isEmpty

/-- Translated from YahooFinanceClient._clean_dataframe
(src/yahoofinanceClient.py lines 261-327). A None or empty input returns an
empty frame (lines 263-264). For any non-empty frame, the column and index
normalisation of lines 267-293 transforms the frame without raising, and
line 294 then evaluates an f-string cache key that references the names
symbol, interval and lookback_days, none of which is bound anywhere in the
scope of this method, so Python raises NameError there — before any of the
renaming, column-selection, deduplication or sorting code of lines 300-327
can run. -/
def clean_dataframe (df : Option PFrame) : Except PyError PFrame :=
  match df with
  | none => Except.ok emptyFrame
  | some d =>
    if d.isEmptyDF then Except.ok emptyFrame
    else Except.error PyError.NameError

/-- The non-empty frame (with a duplicated Datetime row) built by the unit
test test_clean_dataframe_removes_duplicates
(src/tests/test_yahoofinance.py lines 149-163). -/
def dupFrame : PFrame :=
  ⟨["Date", "Open", "High", "Low", "Close"],
   [[20240101, 100, 105, 99, 104],
    [20240101, 100, 105, 99, 104],
    [20240102, 101, 106, 100, 105]]⟩

/-- C8: evaluation of _clean_dataframe. The None and empty branches return
an empty frame as the claim says, but every non-empty input — including the
frame built by the cleaning test of the repository — raises NameError at line 294
instead of returning a deduplicated, Datetime-sorted frame. -/
theorem clean_dataframe_raises_name_error :
    clean_dataframe (some dupFrame) = Except.error PyError.NameError ∧
    clean_dataframe none = Except.ok emptyFrame ∧
    clean_dataframe (some emptyFrame) = Except.ok emptyFrame :=
  ⟨rfl, rfl, rfl⟩

/-! ## The intended cleaning (dead code of lines 300-327) -/

/-- Modelled from the spec: the cleaning contract of section 6 (and the dead
code at lines 300-327 of _clean_dataframe) — rows, given as (Datetime key,
fields) pairs, are deduplicated on the Datetime key keeping the first
occurrence. -/
def dropDupKeys : List (ℤ × List ℚ) → List (ℤ × List ℚ)
  | [] => []
  | r :: rest => r :: dropDupKeys (rest.filter (fun q => q.1 != r.1))
termination_by l => l.length
decreasing_by
  simp only [List.length_cons]
  exact Nat.lt_succ_of_le (List.length_filter_le _ _)

/-- Ascending-key insertion used to model the Datetime sort of the dead
cleaning code. -/
def insertRow (r : ℤ × List ℚ) : List (ℤ × List ℚ) → List (ℤ × List ℚ)
  | [] => [r]
  | q :: rest => if r.1 ≤ q.1 then r :: q :: rest else q :: insertRow r rest

/-- Sorting rows ascending by Datetime key. -/
def sortRows : List (ℤ × List ℚ) → List (ℤ × List ℚ)
  | [] => []
  | r :: rest => insertRow r (sortRows rest)

/-- Modelled from the spec: the intended result of _clean_dataframe on the
row level — deduplicate on Datetime, then sort ascending by Datetime. -/
def intendedClean (rows : List (ℤ × List ℚ)) : List (ℤ × List ℚ) :=
  sortRows (dropDupKeys rows)

/-- Row ordering by Datetime key. -/
def keyLe (a b : ℤ × List ℚ) : Prop := a.1 ≤ b.1

theorem insertRow_perm (r : ℤ × List ℚ) (l : List (ℤ × List ℚ)) :
    List.Perm (insertRow r l) (r :: l) := by
  induction l with
  | nil => exact List.Perm.refl _
  | cons q rest ih =>
    simp only [insertRow]
    split_ifs
    · exact List.Perm.refl _
    · exact (List.Perm.cons q ih).trans (List.Perm.swap r q rest)

theorem insertRow_sorted (r : ℤ × List ℚ) (l : List (ℤ × List ℚ))
    (h : List.Pairwise keyLe l) : List.Pairwise keyLe (insertRow r l) := by
  induction l with
  | nil =>
    simp only [insertRow]
    exact List.pairwise_singleton _ _
  | cons q rest ih =>
    have hq := (List.pairwise_cons.mp h).1
    have hrest := (List.pairwise_cons.mp h).2
    simp only [insertRow]
    split_ifs with hle
    · constructor
      · intro b hb
        rcases List.mem_cons.mp hb with rfl | hbr
        · exact hle
        · exact le_trans hle (hq b hbr)
      · exact h
    · constructor
      · intro b hb
        rcases List.mem_cons.mp ((insertRow_perm r rest).mem_iff.mp hb) with rfl | hbr
        · exact le_of_not_le hle
        · exact hq b hbr
      · exact ih hrest

theorem sortRows_perm (l : List (ℤ × List ℚ)) : List.Perm (sortRows l) l := by
  induction l with
  | nil => exact List.Perm.refl _
  | cons r rest ih =>
    simp only [sortRows]
    exact (insertRow_perm r (sortRows rest)).trans (List.Perm.cons r ih)

theorem sortRows_sorted (l : List (ℤ × List ℚ)) : List.Pairwise keyLe (sortRows l) := by
  induction l with
  | nil => exact List.Pairwise.nil
  | cons r rest ih =>
    simp only [sortRows]
    exact insertRow_sorted r _ ih

theorem dropDupKeys_subset (l : List (ℤ × List ℚ)) :
    ∀ a, a ∈ dropDupKeys l → a ∈ l := by
  induction l using dropDupKeys.induct with
  | case1 =>
    intro a ha
    rw [dropDupKeys] at ha
    exact ha
  | case2 r rest ih =>
    intro a ha
    rw [dropDupKeys] at ha
    rcases List.mem_cons.mp ha with h | h
    · exact h ▸ List.mem_cons_self _ _
    · exact List.mem_cons_of_mem r (List.mem_of_mem_filter (ih a h))

theorem dropDupKeys_keys_distinct (l : List (ℤ × List ℚ)) :
    List.Pairwise (fun a b => a.1 ≠ b.1) (dropDupKeys l) := by
  induction l using dropDupKeys.induct with
  | case1 =>
    rw [dropDupKeys]
    exact List.Pairwise.nil
  | case2 r rest ih =>
    rw [dropDupKeys]
    constructor
    · intro b hb
      have hbf : b ∈ rest.filter (fun q => q.1 != r.1) := dropDupKeys_subset _ b hb
      have hne := List.of_mem_filter hbf
      simp only [bne_iff_ne, ne_eq] at hne
      exact Ne.symm hne
    · exact ih

/-- The property the claim (and the cleaning test) expects of the cleaned
frame: Datetime keys pairwise distinct and in ascending order — it holds of
the intended cleaning, while the shipped _clean_dataframe never reaches that
code. -/
theorem intendedClean_sorted_distinct (rows : List (ℤ × List ℚ)) :
    List.Pairwise keyLe (intendedClean rows) ∧
    List.Pairwise (fun a b => a.1 ≠ b.1) (intendedClean rows) := by
  constructor
  · exact sortRows_sorted _
  · have hperm : List.Perm (intendedClean rows) (dropDupKeys rows) := sortRows_perm _
    exact (hperm.pairwise_iff (fun h => Ne.symm h)).mpr (dropDupKeys_keys_distinct rows)

/-! ## get_price -/

/-- Translated from YahooFinanceClient.get_price
(src/yahoofinanceClient.py lines 329-336). The external
yf.Ticker(...).history network call is abstracted as an explicit fetch
oracle that either fails with some exception or returns the Close column of
the one-day history. The whole body sits in a try with a bare except, so any
failure returns None; an empty history returns None; otherwise the last
Close value (iloc[-1]) is returned. -/
def get_price (fetch : String → Except PyError (List ℚ)) (symbol : String) : Option ℚ :=
  match fetch (get_symbol symbol) with
  | Except.error _ => none
  | Except.ok closes => if closes.isEmpty then none else closes.getLast?

/-- C10: get_price never raises — it is total, returns None whenever the
history retrieval fails or is empty, and otherwise returns the last Close
value. -/
theorem get_price_spec (fetch : String → Except PyError (List ℚ)) (symbol : String) :
    (∀ e, fetch (get_symbol symbol) = Except.error e → get_price fetch symbol = none) ∧
    (fetch (get_symbol symbol) = Except.ok [] → get_price fetch symbol = none) ∧
    (∀ closes x, fetch (get_symbol symbol) = Except.ok closes → closes.getLast? = some x →
      get_price fetch symbol = some x) := by
  refine ⟨?_, ?_, ?_⟩
  · intro e he
    unfold get_price
    rw [he]
  · intro he
    unfold get_price
    rw [he]
    rfl
  · intro closes x hc hx
    unfold get_price
    rw [hc]
    have hne : closes.isEmpty = false := by
      cases closes with
      | nil => simp at hx
      | cons a l => rfl
    simp only [hne, Bool.false_eq_true, if_false]
    exact hx

/-- A concrete fetch oracle for the C10 witness: succeeds for the mapped BTC
ticker, fails otherwise. -/
def demoFetch : String → Except PyError (List ℚ) :=
  fun t => if t = "BTC-USD" then Except.ok [41000, 42000] else Except.error PyError.RuntimeError

/-- Witness for C10: a successful fetch yields the last Close, a failing one
yields None. -/
theorem get_price_spec_witness :
    get_price demoFetch "btc" = some 42000 ∧ get_price demoFetch "zzz" = none :=
  ⟨(get_price_spec demoFetch "btc").2.2 [41000, 42000] 42000 (by decide) (by decide),
   (get_price_spec demoFetch "zzz").1 PyError.RuntimeError (by decide)⟩
